import Mathlib

/-!
Verification of the WordPress Docker-in-Docker instance manager.

This file gives a shallow embedding of the instance lifecycle engine of
the repository, centred on the shell script
images/docker-dind-wp/instance-manager.sh and on helper functions of the
outer CLI cli-tool/bin/wp-dind.js, and proves or refutes the frozen
claims about it.

Modelling conventions:
* the workspace config JSON file is an association list of
  (instance name, config entry); a missing file is Option.none;
* the on-disk instance directories, each holding a .instance-info
  metadata file plus a WordPress file tree and a MySQL data directory,
  are an association list of (name, InstanceData);
* the nested Docker engine is abstracted to the list of bridge network
  names known to it; container engine calls that the script trusts
  (compose up, stop, start) are no-ops on the modelled state;
* random password generation (openssl rand) is modelled by a freshness
  counter: each generated secret is a Nat never produced before;
* MySQL authentication at the interface boundary is modelled faithfully:
  a dump or an import succeeds exactly when the supplied root password
  equals the root password the target container was initialised with.
-/

namespace WpDind

/-- One entry of the .workspace-config.json `instances` object, as
written by save_instance_to_config (port, stack, status; the createdAt
timestamp is irrelevant to the claims and omitted). -/
structure ConfigEntry where
  port : Nat
  webserver : String
  phpVersion : String
  mysqlVersion : String
  status : String
deriving Repr, DecidableEq

/-- The `instances` object of the workspace config file: an association
list from instance name to entry (JSON object keys are unique and keep
insertion order, which jq preserves). -/
abbrev Config := List (String × ConfigEntry)

/-- The .instance-info metadata file written by create_instance. -/
structure InstanceInfo where
  mysqlVersion : String
  phpVersion : String
  webserver : String
  network : String
  port : Nat
  dbPassword : Nat
  dbRootPassword : Nat
deriving Repr, DecidableEq

/-- The WordPress file tree of an instance: either its own payload
(abstracted to a content stamp) or a symlink to the tree of another
instance (the symlink clone strategy). -/
inductive FilesPayload where
  | own (content : Nat)
  | sharedWith (source : String)
deriving Repr, DecidableEq

/-- An on-disk instance directory: metadata file, WordPress file tree,
and the rows of its MySQL database (abstracted to a list of row
stamps; a freshly created instance has an empty database). -/
structure InstanceData where
  info : InstanceInfo
  files : FilesPayload
  db : List Nat
deriving Repr, DecidableEq

/-- The state the instance manager script operates on: the workspace
config file (none when the file does not exist), the instance
directories, the Docker bridge networks, and the freshness counter
feeding password generation. -/
structure MgrState where
  configFile : Option Config
  dirs : List (String × InstanceData)
  networks : List String
  counter : Nat
deriving Repr, DecidableEq

/-- INSTANCE_PORT_START from the script. -/
def INSTANCE_PORT_START : Nat := 8001

/-- One iteration of the port scan loop of get_next_port:
if the scanned port is at least the running maximum, the running
maximum becomes that port plus one. -/
def portStep (maxPort p : Nat) : Nat := if p ≥ maxPort then p + 1 else maxPort

/-- The ports assigned in a workspace config. -/
def portsOf (c : Config) : List Nat := c.map (fun kv => kv.2.port)

/-- get_next_port from instance-manager.sh: when the workspace config
file is missing the loop body never runs and the range start is
returned; otherwise the loop folds portStep over the recorded ports. -/
def get_next_port (cfg : Option Config) : Nat :=
  match cfg with
  | none => INSTANCE_PORT_START
  | some c => (portsOf c).foldl portStep INSTANCE_PORT_START

/-- Least upper bound helper: one more than the maximum of the list,
or zero for the empty list. -/
def portSup : List Nat → Nat
  | [] => 0
  | p :: ps => max (p + 1) (portSup ps)

theorem foldl_portStep_eq (ports : List Nat) :
    ∀ acc : Nat, ports.foldl portStep acc = max acc (portSup ports) := by
  induction ports with
  | nil => intro acc; simp [portSup]
  | cons p ps ih =>
      intro acc
      simp only [List.foldl_cons, ih, portSup, portStep]
      split <;> omega

theorem mem_lt_portSup {p : Nat} {ports : List Nat} (h : p ∈ ports) :
    p < portSup ports := by
  induction ports with
  | nil => cases h
  | cons q qs ih =>
      rcases List.mem_cons.mp h with h1 | h2
      · subst h1; simp only [portSup]; omega
      · have := ih h2; simp only [portSup]; omega

theorem portSup_le {m : Nat} {ports : List Nat}
    (h : ∀ p ∈ ports, p < m) : portSup ports ≤ m := by
  induction ports with
  | nil => simp [portSup]
  | cons q qs ih =>
      have hq := h q (List.mem_cons_self q qs)
      have hqs := ih (fun p hp => h p (List.mem_cons_of_mem q hp))
      simp [portSup]; omega

/-- get_next_port on an existing config file computes exactly
max(rangeStart, 1 + maximum recorded port), independent of scan
order. -/
theorem get_next_port_eq (c : Config) :
    get_next_port (some c) = max INSTANCE_PORT_START (portSup (portsOf c)) := by
  simp [get_next_port, foldl_portStep_eq]

theorem lt_get_next_port {c : Config} {p : Nat} (h : p ∈ portsOf c) :
    p < get_next_port (some c) := by
  have := mem_lt_portSup h
  rw [get_next_port_eq]; omega

theorem get_next_port_le {c : Config} {m : Nat}
    (h1 : INSTANCE_PORT_START ≤ m) (h2 : ∀ p ∈ portsOf c, p < m) :
    get_next_port (some c) ≤ m := by
  have := portSup_le h2
  rw [get_next_port_eq]; omega

theorem start_le_get_next_port (cfg : Option Config) :
    INSTANCE_PORT_START ≤ get_next_port cfg := by
  cases cfg with
  | none => simp [get_next_port]
  | some c => rw [get_next_port_eq]; omega

/-- The jq assignment .instances[name] = entry: replaces the entry in
place when the key exists, appends it otherwise. -/
def upsertEntry (c : Config) (name : String) (e : ConfigEntry) : Config :=
  if c.any (fun kv => kv.1 = name) then
    c.map (fun kv => if kv.1 = name then (name, e) else kv)
  else c ++ [(name, e)]

/-- save_instance_to_config: when the workspace config file does not
exist the function returns success without writing anything; otherwise
the jq upsert records the instance. -/
def save_instance_to_config (cfg : Option Config) (name : String)
    (port : Nat) (webserver phpFull mysqlFull : String) : Option Config :=
  match cfg with
  | none => none
  | some c => some (upsertEntry c name
      { port := port, webserver := webserver, phpVersion := phpFull,
        mysqlVersion := mysqlFull, status := "created" })

/-- remove_instance_from_config: jq del(.instances[name]); a missing
file is again tolerated silently. -/
def remove_instance_from_config (cfg : Option Config) (name : String) :
    Option Config :=
  match cfg with
  | none => none
  | some c => some (c.filter (fun kv => kv.1 ≠ name))

/-- The mysql_full_version case table (unknown codes fall through to
8.0). -/
def mysql_full_version (v : String) : String :=
  if v = "56" then "5.6" else if v = "57" then "5.7" else "8.0"

/-- The php_full_version case table (unknown codes fall through to
8.3). -/
def php_full_version (v : String) : String :=
  if v = "74" then "7.4" else if v = "80" then "8.0"
  else if v = "81" then "8.1" else if v = "82" then "8.2" else "8.3"

/-- Directory existence test [ -d instance_dir ]. -/
def dirExists (st : MgrState) (name : String) : Bool :=
  st.dirs.any (fun d => d.1 = name)

/-- Reading the .instance-info file and data of an instance directory. -/
def lookupDir (st : MgrState) (name : String) : Option InstanceData :=
  (st.dirs.find? (fun d => d.1 = name)).map (fun d => d.2)

/-- The webserver validation of create_instance. -/
def validWebserver (ws : String) : Bool := ws = "nginx" || ws = "apache"

/-- The network name computed by create_instance: the ordinal is
`find INSTANCES_DIR -maxdepth 1 -type d | wc -l` run after the new
instance directory was made, so it counts INSTANCES_DIR itself plus
every instance directory including the fresh one. -/
def networkNameFor (st : MgrState) : String :=
  "wp-network-" ++ toString (st.dirs.length + 2)

/-- docker network create guarded by docker network inspect: the
network is created only when absent; an existing network of the same
name is reused without any error. -/
def ensureNetwork (networks : List String) (name : String) : List String :=
  if name ∈ networks then networks else networks ++ [name]

/-- The metadata create_instance writes for the new instance: two
fresh passwords from the generator, the next port from the workspace
config, the network name from the directory ordinal. -/
def createdInfo (st : MgrState) (mysql php ws : String) : InstanceInfo :=
  { mysqlVersion := mysql, phpVersion := php, webserver := ws,
    network := networkNameFor st, port := get_next_port st.configFile,
    dbPassword := st.counter, dbRootPassword := st.counter + 1 }

/-- The state after the body of create_instance ran past validation:
the instance directory exists with empty WordPress tree and empty
database, the per-instance and shared networks are ensured, the
instance is recorded in the workspace config (a no-op when the config
file is missing), and two fresh secrets were consumed. -/
def createdState (st : MgrState) (name mysql php ws : String) : MgrState :=
  { configFile := save_instance_to_config st.configFile name
      (get_next_port st.configFile) ws
      (php_full_version php) (mysql_full_version mysql),
    dirs := st.dirs ++
      [(name, { info := createdInfo st mysql php ws,
                files := FilesPayload.own 0, db := [] })],
    networks := ensureNetwork (ensureNetwork st.networks (networkNameFor st))
      "wp-shared",
    counter := st.counter + 2 }

/-- create_instance from instance-manager.sh. Validation (duplicate
directory, webserver) happens before any side effect. The returned
Option String is the error message of a non-zero exit, paired with the
state at exit time. -/
def create_instance (st : MgrState) (name mysql php ws : String) :
    MgrState × Option String :=
  if dirExists st name then
    (st, some ("Error: Instance " ++ name ++ " already exists"))
  else if ¬ validWebserver ws then
    (st, some ("Error: Invalid webserver " ++ ws))
  else (createdState st name mysql php ws, none)

/-- remove_instance from instance-manager.sh: missing directory is an
error; declining the interactive confirmation exits zero with nothing
removed; otherwise the directory and the config record are deleted
(networks are never deleted). -/
def remove_instance (st : MgrState) (name : String) (confirm : Bool) :
    MgrState × Option String :=
  if ¬ dirExists st name then
    (st, some ("Error: Instance " ++ name ++ " does not exist"))
  else if ¬ confirm then (st, none)
  else
    ({ st with
        dirs := st.dirs.filter (fun d => d.1 ≠ name),
        configFile := remove_instance_from_config st.configFile name }, none)

/-- Apply a payload change to the directory entry of one instance,
leaving its metadata file untouched. -/
def mapDir (st : MgrState) (name : String) (g : InstanceData → InstanceData) :
    MgrState :=
  let upd := fun (d : String × InstanceData) =>
    if d.1 = name then (d.1, g d.2) else d
  { st with dirs := st.dirs.map upd }

/-- Replace the WordPress file tree of one instance (rm -rf followed by
cp -a or ln -s in the clone strategies). -/
def setFiles (st : MgrState) (name : String) (f : FilesPayload) : MgrState :=
  mapDir st name (fun d => { d with files := f })

/-- Replace the database rows of one instance. -/
def setDb (st : MgrState) (name : String) (rows : List Nat) : MgrState :=
  mapDir st name (fun d => { d with db := rows })

/-- External activity between manager invocations (WordPress install,
site usage): the file tree and database of an instance change, the
manager state does not. -/
def seedPayload (st : MgrState) (name : String) (f : FilesPayload)
    (rows : List Nat) : MgrState :=
  mapDir st name (fun d => { d with files := f, db := rows })

/-- The clone strategy validation regex of clone_instance. -/
def validStrategy (s : String) : Bool :=
  s = "symlink" || s = "copy-all" || s = "copy-files"

/-- Interface model of mysqldump and mysql import run inside a MySQL
container: the call succeeds exactly when the root password supplied on
the command line is the root password the container was initialised
with; on success the database content is read, respectively replaced. -/
def mysqlAuth (containerRootPw providedPw : Nat) (rows : List Nat) :
    Except String (List Nat) :=
  if providedPw = containerRootPw then Except.ok rows
  else Except.error "Access denied"

/-- The strategy case statement of clone_instance, run on the state
after the target was created and stopped. envRootPw is the value of the
shell variable DB_ROOT_PASSWORD, set by sourcing the .instance-info of
the SOURCE and never reassigned, so both the mysqldump on the source
and the mysql import on the target are authenticated with it. -/
def cloneApplyStrategy (st1 : MgrState) (srcData : InstanceData)
    (envRootPw : Nat) (source target strategy : String) :
    MgrState × Option String :=
  if strategy = "symlink" then
    (setFiles st1 target (FilesPayload.sharedWith source), none)
  else if strategy = "copy-all" then
    match mysqlAuth srcData.info.dbRootPassword envRootPw srcData.db with
    | Except.error e => (setFiles st1 target srcData.files, some e)
    | Except.ok dump =>
      match lookupDir (setFiles st1 target srcData.files) target with
      | none => (setFiles st1 target srcData.files, some "unreachable")
      | some tgtData =>
        match mysqlAuth tgtData.info.dbRootPassword envRootPw dump with
        | Except.error e => (setFiles st1 target srcData.files, some e)
        | Except.ok rows =>
            (setDb (setFiles st1 target srcData.files) target rows, none)
  else (setFiles st1 target srcData.files, none)

/-- clone_instance from instance-manager.sh. After validation the
target is built by create_instance with the stack of the source, then
the strategy is applied. -/
def clone_instance (st : MgrState) (source target strategy : String) :
    MgrState × Option String :=
  if ¬ dirExists st source then
    (st, some ("Error: Source instance " ++ source ++ " does not exist"))
  else if dirExists st target then
    (st, some ("Error: Target instance " ++ target ++ " already exists"))
  else if ¬ validStrategy strategy then
    (st, some "Error: Invalid clone strategy")
  else
    match lookupDir st source with
    | none => (st, some "unreachable")
    | some srcData =>
      match create_instance st target srcData.info.mysqlVersion
        srcData.info.phpVersion srcData.info.webserver with
      | (st1, some e) => (st1, some e)
      | (st1, none) =>
          cloneApplyStrategy st1 srcData srcData.info.dbRootPassword
            source target strategy

/-- The create arm of the dispatch at the bottom of the script: an
empty instance name prints the usage text and exits 1 before
create_instance runs; any other name is forwarded unchanged. -/
def manager_create (st : MgrState) (name mysql php ws : String) :
    MgrState × Option String :=
  if name = "" then (st, some "usage") else create_instance st name mysql php ws

/-- The instance name pattern of the specification, [A-Za-z0-9_-]+,
which in the source appears only as the JS regex guarding the WORKSPACE
name prompt of wp-dind init (there is no such check on the instance
create path). -/
def matchesNamePattern (s : String) : Bool :=
  s ≠ "" && s.data.all (fun c => c.isAlphanum || c = '_' || c = '-')

/-- Literal prefix test on character lists, modelling grep over one
line with an anchored literal pattern. -/
def startsWithChars : List Char → List Char → Bool
  | [], _ => true
  | _ :: _, [] => false
  | a :: as, b :: bs => a = b && startsWithChars as bs

/-- grep -q over one container name with the anchored pattern used by
list_instances and show_info. -/
def grepCaret (pat line : String) : Bool := startsWithChars pat.data line.data

/-- The running classification of list_instances and show_info: the
instance counts as running when some line of docker ps names matches
the anchored pattern name followed by a dash. -/
def instanceReportedRunning (name : String) (running : List String) : Bool :=
  running.any (fun c => grepCaret (name ++ "-") c)

/-- The global CLI configuration file of wp-dind.js
(~/.wp-dind-config.json): a registry of initialised workspace
directories plus a default image path. -/
structure CliConfig where
  defaultImagePath : Option String
  instances : List (String × String)
deriving Repr, DecidableEq

/-- loadConfig of wp-dind.js: a missing file yields the default object
with null defaultImagePath and an empty instances mapping. -/
def loadConfig (file : Option CliConfig) : CliConfig :=
  match file with
  | some c => c
  | none => { defaultImagePath := none, instances := [] }

/-- The wp-dind-workspace.json document of one workspace directory. -/
structure WorkspaceJson where
  workspaceName : String
  workspaceType : String
  instances : List (String × ConfigEntry)
deriving Repr, DecidableEq

/-- loadWorkspaceConfig of wp-dind.js: the parsed document when the
file exists, null otherwise. -/
def loadWorkspaceConfig (file : Option WorkspaceJson) : Option WorkspaceJson :=
  match file with
  | some c => some c
  | none => none

/-- The caller check of install-wordpress in wp-dind.js: a null
workspace config aborts with an error telling the user to run init. -/
def installGuard (ws : Option WorkspaceJson) : Option String :=
  match ws with
  | none => some "This directory is not initialized as a wp-dind workspace."
  | some _ => none

/-- An empty multi-instance workspace whose config file exists: no
instances recorded, no instance directories, no nested networks yet. -/
def initState : MgrState :=
  { configFile := some [], dirs := [], networks := [], counter := 0 }

/-- One manager invocation or one stretch of external site activity. -/
inductive Step : MgrState → MgrState → Prop where
  | create (st : MgrState) (n m p w : String) :
      Step st (create_instance st n m p w).1
  | remove (st : MgrState) (n : String) (c : Bool) :
      Step st (remove_instance st n c).1
  | clone (st : MgrState) (s t g : String) :
      Step st (clone_instance st s t g).1
  | seed (st : MgrState) (n : String) (f : FilesPayload) (rows : List Nat) :
      Step st (seedPayload st n f rows)

/-- States reachable from the empty workspace by any sequence of
manager invocations and external site activity. -/
inductive Reachable : MgrState → Prop where
  | init : Reachable initState
  | step {st st1 : MgrState} : Reachable st → Step st st1 → Reachable st1

/-- The ports recorded in the workspace config of a state. -/
def configPorts (st : MgrState) : List Nat :=
  match st.configFile with
  | none => []
  | some c => portsOf c

/-- Internal well-formedness of a manager state, preserved by every
operation from the empty workspace: the config file keeps existing,
its keys and its ports stay pairwise distinct, every instance
directory is recorded in it with the same port, and every stored
secret is older than the freshness counter. -/
structure Inv (st : MgrState) : Prop where
  cfgSome : st.configFile.isSome = true
  keysDistinct : ∀ c, st.configFile = some c →
      (c.map (fun kv => kv.1)).Pairwise (fun a b => a ≠ b)
  portsDistinct : ∀ c, st.configFile = some c →
      (portsOf c).Pairwise (fun a b => a ≠ b)
  agree : ∀ n d, (n, d) ∈ st.dirs → ∀ c, st.configFile = some c →
      ∃ e, (n, e) ∈ c ∧ e.port = d.info.port
  fresh : ∀ n d, (n, d) ∈ st.dirs →
      d.info.dbPassword < st.counter ∧ d.info.dbRootPassword < st.counter

theorem dirExists_false_forall {st : MgrState} {name : String}
    (h : dirExists st name = false) : ∀ d ∈ st.dirs, d.1 ≠ name := by
  intro d hd he
  have hany : st.dirs.any (fun d => d.1 = name) = true :=
    List.any_eq_true.mpr ⟨d, hd, by simp [he]⟩
  rw [dirExists] at h
  rw [h] at hany
  cases hany

theorem upsert_replace_keys (c : Config) (name : String) (e : ConfigEntry) :
    ((c.map (fun kv => if kv.1 = name then (name, e) else kv)).map
      (fun kv => kv.1)) = c.map (fun kv => kv.1) := by
  rw [List.map_map]
  congr 1
  funext kv
  by_cases hk : kv.1 = name <;> simp [hk]

theorem upsert_replace_ports (c : Config) (name : String) (e : ConfigEntry) :
    portsOf (c.map (fun kv => if kv.1 = name then (name, e) else kv)) =
      c.map (fun kv => if kv.1 = name then e.port else kv.2.port) := by
  unfold portsOf
  rw [List.map_map]
  congr 1
  funext kv
  by_cases hk : kv.1 = name <;> simp [hk]

theorem upsert_ports_pairwise {c : Config} {name : String} {e : ConfigEntry}
    (hk : (c.map (fun kv => kv.1)).Pairwise (fun a b => a ≠ b))
    (hp : (portsOf c).Pairwise (fun a b => a ≠ b))
    (hlt : ∀ p ∈ portsOf c, p < e.port) :
    (portsOf (upsertEntry c name e)).Pairwise (fun a b => a ≠ b) := by
  unfold upsertEntry
  by_cases hAny : c.any (fun kv => kv.1 = name) = true
  · rw [if_pos hAny]
    rw [upsert_replace_ports]
    simp only [portsOf] at hp
    rw [List.pairwise_map] at hk hp ⊢
    have hcomb := hk.and hp
    refine hcomb.imp_of_mem ?_
    intro a b ha hb hab
    obtain ⟨hne, hpne⟩ := hab
    by_cases h1 : a.1 = name <;> by_cases h2 : b.1 = name <;>
      simp only [h1, h2, if_true, if_false]
    · exact absurd (h1.trans h2.symm) hne
    · intro hcon
      have hbmem : b.2.port ∈ portsOf c := List.mem_map.mpr ⟨b, hb, rfl⟩
      have := hlt _ hbmem
      omega
    · intro hcon
      have hamem : a.2.port ∈ portsOf c := List.mem_map.mpr ⟨a, ha, rfl⟩
      have := hlt _ hamem
      omega
    · exact hpne
  · rw [if_neg hAny]
    unfold portsOf
    rw [List.map_append, List.pairwise_append]
    refine ⟨hp, by simp, ?_⟩
    intro a ha b hb
    simp only [List.map_cons, List.map_nil, List.mem_singleton] at hb
    subst hb
    have := hlt a ha
    omega

theorem upsert_keys_pairwise {c : Config} {name : String} {e : ConfigEntry}
    (hk : (c.map (fun kv => kv.1)).Pairwise (fun a b => a ≠ b)) :
    ((upsertEntry c name e).map (fun kv => kv.1)).Pairwise (fun a b => a ≠ b) := by
  unfold upsertEntry
  by_cases hAny : c.any (fun kv => kv.1 = name) = true
  · rw [if_pos hAny]
    rw [upsert_replace_keys]
    exact hk
  · rw [if_neg hAny]
    rw [List.map_append, List.pairwise_append]
    refine ⟨hk, by simp, ?_⟩
    intro a ha b hb
    simp only [List.map_cons, List.map_nil, List.mem_singleton] at hb
    subst hb
    intro hcon
    subst hcon
    rcases List.mem_map.mp ha with ⟨kv, hkv, hkv1⟩
    exact hAny (List.any_eq_true.mpr ⟨kv, hkv, by simp [hkv1]⟩)

theorem upsert_mem_self (c : Config) (name : String) (e : ConfigEntry) :
    (name, e) ∈ upsertEntry c name e := by
  unfold upsertEntry
  by_cases hAny : c.any (fun kv => kv.1 = name) = true
  · rw [if_pos hAny]
    rcases List.any_eq_true.mp hAny with ⟨kv, hkv, hkv1⟩
    refine List.mem_map.mpr ⟨kv, hkv, ?_⟩
    simp only [decide_eq_true_eq] at hkv1
    simp [hkv1]
  · rw [if_neg hAny]
    exact List.mem_append_right _ (List.mem_singleton.mpr rfl)

theorem upsert_mem_other {c : Config} {name m : String} {e e2 : ConfigEntry}
    (hm : m ≠ name) (h : (m, e2) ∈ c) : (m, e2) ∈ upsertEntry c name e := by
  unfold upsertEntry
  by_cases hAny : c.any (fun kv => kv.1 = name) = true
  · rw [if_pos hAny]
    refine List.mem_map.mpr ⟨(m, e2), h, ?_⟩
    simp [hm]
  · rw [if_neg hAny]
    exact List.mem_append_left _ h

theorem inv_createdState {st : MgrState} (h : Inv st) {name : String}
    (m p w : String) (hdir : dirExists st name = false) :
    Inv (createdState st name m p w) := by
  obtain ⟨c, hc⟩ := Option.isSome_iff_exists.mp h.cfgSome
  have hkeys := h.keysDistinct c hc
  have hports := h.portsDistinct c hc
  have hnames := dirExists_false_forall hdir
  have hcfg : (createdState st name m p w).configFile =
      some (upsertEntry c name
        { port := get_next_port st.configFile, webserver := w,
          phpVersion := php_full_version p,
          mysqlVersion := mysql_full_version m, status := "created" }) := by
    simp [createdState, save_instance_to_config, hc]
  constructor
  · rw [hcfg]; rfl
  · intro c2 hc2
    rw [hcfg] at hc2
    obtain rfl := Option.some.inj hc2
    exact upsert_keys_pairwise hkeys
  · intro c2 hc2
    rw [hcfg] at hc2
    obtain rfl := Option.some.inj hc2
    refine upsert_ports_pairwise hkeys hports ?_
    intro q hq
    rw [hc]
    exact lt_get_next_port hq
  · intro n d hmem c2 hc2
    rw [hcfg] at hc2
    obtain rfl := Option.some.inj hc2
    simp only [createdState] at hmem
    rcases List.mem_append.mp hmem with hold | hnew
    · have hne : n ≠ name := hnames (n, d) hold
      obtain ⟨e, he, hep⟩ := h.agree n d hold c hc
      exact ⟨e, upsert_mem_other hne he, hep⟩
    · simp only [List.mem_singleton, Prod.mk.injEq] at hnew
      obtain ⟨rfl, rfl⟩ := hnew
      exact ⟨_, upsert_mem_self c _ _, rfl⟩
  · intro n d hmem
    simp only [createdState] at hmem
    rcases List.mem_append.mp hmem with hold | hnew
    · have := h.fresh n d hold
      simp only [createdState]
      omega
    · simp only [List.mem_singleton, Prod.mk.injEq] at hnew
      obtain ⟨rfl, rfl⟩ := hnew
      simp only [createdState, createdInfo]
      omega

theorem not_true_eq_false {b : Bool} (h : ¬ b = true) : b = false := by
  cases b
  · rfl
  · exact absurd rfl h

theorem inv_create {st : MgrState} (h : Inv st) (name m p w : String) :
    Inv (create_instance st name m p w).1 := by
  unfold create_instance
  by_cases h1 : dirExists st name = true
  · rw [if_pos h1]; exact h
  · rw [if_neg h1]
    by_cases h2 : validWebserver w = true
    · rw [if_neg (by simp [h2])]
      exact inv_createdState h m p w (not_true_eq_false h1)
    · rw [if_pos h2]; exact h

theorem inv_remove {st : MgrState} (h : Inv st) (name : String) (cf : Bool) :
    Inv (remove_instance st name cf).1 := by
  unfold remove_instance
  by_cases h1 : dirExists st name = true
  · rw [if_neg (by simp [h1])]
    by_cases h2 : cf = true
    · rw [if_neg (by simp [h2])]
      obtain ⟨c, hc⟩ := Option.isSome_iff_exists.mp h.cfgSome
      have hcfg : remove_instance_from_config st.configFile name =
          some (c.filter (fun kv => kv.1 ≠ name)) := by
        simp [remove_instance_from_config, hc]
      constructor
      · simp only [hcfg]; rfl
      · intro c2 hc2
        simp only [hcfg] at hc2
        obtain rfl := Option.some.inj hc2
        exact (h.keysDistinct c hc).sublist ((List.filter_sublist _).map _)
      · intro c2 hc2
        simp only [hcfg] at hc2
        obtain rfl := Option.some.inj hc2
        exact (h.portsDistinct c hc).sublist ((List.filter_sublist _).map _)
      · intro n d hmem c2 hc2
        simp only [hcfg] at hc2
        obtain rfl := Option.some.inj hc2
        simp only [List.mem_filter, decide_eq_true_eq] at hmem
        obtain ⟨hold, hne⟩ := hmem
        obtain ⟨e, he, hep⟩ := h.agree n d hold c hc
        refine ⟨e, List.mem_filter.mpr ⟨he, by simpa using hne⟩, hep⟩
      · intro n d hmem
        simp only [List.mem_filter] at hmem
        exact h.fresh n d hmem.1
    · rw [if_pos h2]; exact h
  · rw [if_pos h1]; exact h

theorem inv_mapDir {st : MgrState} (h : Inv st) (name : String)
    {g : InstanceData → InstanceData} (hg : ∀ d, (g d).info = d.info) :
    Inv (mapDir st name g) := by
  have hmem2 : ∀ n d, (n, d) ∈ (mapDir st name g).dirs →
      ∃ d0, (n, d0) ∈ st.dirs ∧ d.info = d0.info := by
    intro n d hmem
    simp only [mapDir] at hmem
    rcases List.mem_map.mp hmem with ⟨⟨a1, a2⟩, ha, hupd⟩
    dsimp only at hupd
    by_cases hk : a1 = name
    · rw [if_pos hk] at hupd
      injection hupd with h1 h2
      subst h1; subst h2
      exact ⟨a2, ha, hg a2⟩
    · rw [if_neg hk] at hupd
      injection hupd with h1 h2
      subst h1; subst h2
      exact ⟨a2, ha, rfl⟩
  constructor
  · exact h.cfgSome
  · exact h.keysDistinct
  · exact h.portsDistinct
  · intro n d hmem c hc
    obtain ⟨d0, hd0, hinfo⟩ := hmem2 n d hmem
    obtain ⟨e, he, hep⟩ := h.agree n d0 hd0 c hc
    exact ⟨e, he, by rw [hinfo]; exact hep⟩
  · intro n d hmem
    obtain ⟨d0, hd0, hinfo⟩ := hmem2 n d hmem
    have := h.fresh n d0 hd0
    simp only [mapDir]
    rw [hinfo]
    exact this

theorem cloneApply_states (st1 : MgrState) (srcData : InstanceData)
    (pw : Nat) (s t strat : String) :
    (∃ f, (cloneApplyStrategy st1 srcData pw s t strat).1 = setFiles st1 t f) ∨
    (∃ f rows, (cloneApplyStrategy st1 srcData pw s t strat).1 =
        setDb (setFiles st1 t f) t rows) := by
  unfold cloneApplyStrategy
  split
  · left; exact ⟨_, rfl⟩
  split
  · split
    · left; exact ⟨_, rfl⟩
    · split
      · left; exact ⟨_, rfl⟩
      · split
        · left; exact ⟨_, rfl⟩
        · right; exact ⟨_, _, rfl⟩
  · left; exact ⟨_, rfl⟩

theorem clone_states (st : MgrState) (s t strat : String) :
    (clone_instance st s t strat).1 = st ∨
    (∃ m p w, (clone_instance st s t strat).1 = (create_instance st t m p w).1) ∨
    (∃ m p w f, (clone_instance st s t strat).1 =
        setFiles (create_instance st t m p w).1 t f) ∨
    (∃ m p w f rows, (clone_instance st s t strat).1 =
        setDb (setFiles (create_instance st t m p w).1 t f) t rows) := by
  unfold clone_instance
  split
  · left; rfl
  split
  · left; rfl
  split
  · left; rfl
  split
  · left; rfl
  rename_i srcData heqSrc
  split
  · rename_i st1 e heqCreate
    right; left
    refine ⟨srcData.info.mysqlVersion, srcData.info.phpVersion,
      srcData.info.webserver, ?_⟩
    rw [heqCreate]
  · rename_i st1 heqCreate
    have hst1 : st1 = (create_instance st t srcData.info.mysqlVersion
        srcData.info.phpVersion srcData.info.webserver).1 := by
      rw [heqCreate]
    rcases cloneApply_states st1 srcData srcData.info.dbRootPassword s t strat
      with ⟨f, hf⟩ | ⟨f, rows, hfr⟩
    · right; right; left
      exact ⟨srcData.info.mysqlVersion, srcData.info.phpVersion,
        srcData.info.webserver, f, by rw [hf, hst1]⟩
    · right; right; right
      exact ⟨srcData.info.mysqlVersion, srcData.info.phpVersion,
        srcData.info.webserver, f, rows, by rw [hfr, hst1]⟩

theorem inv_clone {st : MgrState} (h : Inv st) (s t strat : String) :
    Inv (clone_instance st s t strat).1 := by
  rcases clone_states st s t strat with h0 | ⟨m, p, w, h1⟩ |
    ⟨m, p, w, f, h2⟩ | ⟨m, p, w, f, rows, h3⟩
  · rw [h0]; exact h
  · rw [h1]; exact inv_create h t m p w
  · rw [h2]
    unfold setFiles
    apply inv_mapDir
    · exact inv_create h t m p w
    · intro d; rfl
  · rw [h3]
    unfold setDb setFiles
    apply inv_mapDir
    · apply inv_mapDir
      · exact inv_create h t m p w
      · intro d; rfl
    · intro d; rfl

theorem inv_seed {st : MgrState} (h : Inv st) (n : String) (f : FilesPayload)
    (rows : List Nat) : Inv (seedPayload st n f rows) :=
  inv_mapDir h n (fun _ => rfl)

theorem inv_init : Inv initState := by
  constructor
  · rfl
  · intro c hc
    obtain rfl := Option.some.inj hc
    exact List.Pairwise.nil
  · intro c hc
    obtain rfl := Option.some.inj hc
    exact List.Pairwise.nil
  · intro n d hmem
    cases hmem
  · intro n d hmem
    cases hmem

theorem reachable_inv {st : MgrState} (h : Reachable st) : Inv st := by
  induction h with
  | init => exact inv_init
  | step _ hs ih =>
      cases hs with
      | create n m p w => exact inv_create ih n m p w
      | remove n c => exact inv_remove ih n c
      | clone s t g => exact inv_clone ih s t g
      | seed n f rows => exact inv_seed ih n f rows

theorem find?_key_append_of_none {l1 l2 : List (String × InstanceData)}
    {n : String} (h : ∀ d ∈ l1, d.1 ≠ n) :
    (l1 ++ l2).find? (fun d => d.1 = n) = l2.find? (fun d => d.1 = n) := by
  induction l1 with
  | nil => simp
  | cons a as ih =>
      have ha : (decide (a.1 = n)) = false := by
        simp [h a (List.mem_cons_self a as)]
      simp only [List.cons_append, List.find?]
      rw [ha]
      exact ih (fun d hd => h d (List.mem_cons_of_mem a hd))

theorem find?_append_single_of_ne {l : List (String × InstanceData)}
    {x : String × InstanceData} {n : String} (hx : ¬ x.1 = n) :
    (l ++ [x]).find? (fun d => d.1 = n) = l.find? (fun d => d.1 = n) := by
  induction l with
  | nil => simp [List.find?, hx]
  | cons a as ih =>
      simp only [List.cons_append, List.find?]
      cases hpa : (decide (a.1 = n)) with
      | true => rfl
      | false => exact ih

theorem lookupDir_createdState_self {st : MgrState} {name : String}
    (m p w : String) (hdir : dirExists st name = false) :
    lookupDir (createdState st name m p w) name =
      some { info := createdInfo st m p w, files := FilesPayload.own 0,
             db := [] } := by
  unfold lookupDir createdState
  dsimp only
  rw [find?_key_append_of_none (dirExists_false_forall hdir)]
  simp [List.find?]

theorem lookupDir_createdState_other {st : MgrState} {name other : String}
    (m p w : String) (hne : other ≠ name) :
    lookupDir (createdState st name m p w) other = lookupDir st other := by
  unfold lookupDir createdState
  dsimp only
  rw [find?_append_single_of_ne (by simpa using fun he => hne he.symm)]

theorem lookupDir_mapDir_other {st : MgrState} {nm other : String}
    {g : InstanceData → InstanceData} (hne : other ≠ nm) :
    lookupDir (mapDir st nm g) other = lookupDir st other := by
  unfold lookupDir mapDir
  dsimp only
  induction st.dirs with
  | nil => rfl
  | cons a as ih =>
      by_cases hk : a.1 = nm
      · have hao : (decide (a.1 = other)) = false := by
          simp; intro he; exact absurd (he.symm.trans hk) hne
        simp only [List.map_cons, List.find?, if_pos hk]
        rw [hao]
        simpa using ih
      · simp only [List.map_cons, List.find?, if_neg hk]
        cases hao : (decide (a.1 = other)) with
        | true => rfl
        | false => simpa using ih

theorem lookupDir_mapDir_self {st : MgrState} {nm : String}
    {g : InstanceData → InstanceData} :
    lookupDir (mapDir st nm g) nm = (lookupDir st nm).map g := by
  unfold lookupDir mapDir
  dsimp only
  induction st.dirs with
  | nil => rfl
  | cons a as ih =>
      by_cases hk : a.1 = nm
      · simp only [List.map_cons, List.find?, if_pos hk]
        rw [show (decide (a.1 = nm)) = true by simp [hk]]
        rfl
      · simp only [List.map_cons, List.find?, if_neg hk]
        rw [show (decide (a.1 = nm)) = false by simp [hk]]
        simpa using ih

theorem lookupDir_mem {st : MgrState} {n : String} {d : InstanceData}
    (h : lookupDir st n = some d) : (n, d) ∈ st.dirs := by
  unfold lookupDir at h
  cases hf : st.dirs.find? (fun d => d.1 = n) with
  | none => rw [hf] at h; cases h
  | some a =>
      rw [hf] at h
      have h2 : some a.2 = some d := h
      obtain rfl : a.2 = d := by injection h2
      have hmem := List.mem_of_find?_eq_some hf
      have hpred := List.find?_some hf
      simp only [decide_eq_true_eq] at hpred
      rw [← hpred]
      exact Prod.mk.eta ▸ hmem

theorem dirExists_lookup {st : MgrState} {n : String}
    (h : dirExists st n = true) : ∃ d, lookupDir st n = some d := by
  unfold dirExists at h
  rcases List.any_eq_true.mp h with ⟨a, ha, hpa⟩
  unfold lookupDir
  cases hf : st.dirs.find? (fun d => d.1 = n) with
  | some a2 => exact ⟨a2.2, rfl⟩
  | none => exact absurd hpa (List.find?_eq_none.mp hf a ha)

theorem create_instance_ok {st : MgrState} {name m p w : String}
    (hdir : dirExists st name = false) (hws : validWebserver w = true) :
    create_instance st name m p w = (createdState st name m p w, none) := by
  unfold create_instance
  rw [if_neg (by simp [hdir]), if_neg (by simp [hws])]

theorem create_eq_none_inv {st st1 : MgrState} {name m p w : String}
    (h : create_instance st name m p w = (st1, none)) :
    dirExists st name = false ∧ validWebserver w = true ∧
    st1 = createdState st name m p w := by
  unfold create_instance at h
  by_cases h1 : dirExists st name = true
  · rw [if_pos h1] at h
    exact absurd (congrArg Prod.snd h) (by simp)
  · rw [if_neg h1] at h
    by_cases h2 : validWebserver w = true
    · rw [if_neg (by simp [h2])] at h
      refine ⟨not_true_eq_false h1, h2, ?_⟩
      have h3 := congrArg Prod.fst h
      simpa using h3.symm
    · rw [if_pos h2] at h
      exact absurd (congrArg Prod.snd h) (by simp)

/-- Scenario run of the specification: create alpha, create beta,
remove alpha, create gamma, each with the mysql=80, php=83, nginx
stack. -/
def stAlpha : MgrState := (create_instance initState "alpha" "80" "83" "nginx").1

def stBeta : MgrState := (create_instance stAlpha "beta" "80" "83" "nginx").1

def stNoAlpha : MgrState := (remove_instance stBeta "alpha" true).1

def stGamma : MgrState := (create_instance stNoAlpha "gamma" "80" "83" "nginx").1

/-- Create alpha and remove it again: its network wp-network-2 stays
behind while no instance directory is left. -/
def stAlphaGone : MgrState := (remove_instance stAlpha "alpha" true).1

/-- Alpha with site content: file payload 7 and three database rows
written by external WordPress activity. -/
def stSeeded : MgrState :=
  seedPayload stAlpha "alpha" (FilesPayload.own 7) [1, 2, 3]

theorem reachable_stAlpha : Reachable stAlpha :=
  Reachable.step Reachable.init
    (Step.create initState "alpha" "80" "83" "nginx")

theorem reachable_stBeta : Reachable stBeta :=
  Reachable.step reachable_stAlpha
    (Step.create stAlpha "beta" "80" "83" "nginx")

theorem reachable_stNoAlpha : Reachable stNoAlpha :=
  Reachable.step reachable_stBeta (Step.remove stBeta "alpha" true)

theorem reachable_stSeeded : Reachable stSeeded :=
  Reachable.step reachable_stAlpha
    (Step.seed stAlpha "alpha" (FilesPayload.own 7) [1, 2, 3])

/-- Claim C1: for every workspace config, get_next_port returns the
smallest integer that is at least the range start 8001 and strictly
greater than every port assigned to any instance in the config,
independent of the order the ports are scanned; and in the scenario
create alpha, create beta, remove alpha, create gamma the assigned
ports are 8001, 8002 and 8003 (not 8001). -/
theorem C1_next_port_monotonic :
    (∀ c : Config,
      INSTANCE_PORT_START ≤ get_next_port (some c) ∧
      (∀ q ∈ portsOf c, q < get_next_port (some c)) ∧
      (∀ m2, INSTANCE_PORT_START ≤ m2 → (∀ q ∈ portsOf c, q < m2) →
        get_next_port (some c) ≤ m2)) ∧
    (lookupDir stAlpha "alpha").map (fun d => d.info.port) = some 8001 ∧
    (lookupDir stBeta "beta").map (fun d => d.info.port) = some 8002 ∧
    (lookupDir stGamma "gamma").map (fun d => d.info.port) = some 8003 := by
  refine ⟨?_, by decide, by decide, by decide⟩
  intro c
  exact ⟨start_le_get_next_port _, fun q hq => lt_get_next_port hq,
    fun m2 h1 h2 => get_next_port_le h1 h2⟩

/-- A one-entry config used to exercise the C1 characterisation. -/
def entryX : ConfigEntry :=
  { port := 8005, webserver := "nginx", phpVersion := "8.3",
    mysqlVersion := "8.0", status := "created" }

theorem C1_next_port_monotonic_witness :
    8005 < get_next_port (some [("x", entryX)]) ∧
    get_next_port (some [("x", entryX)]) ≤ 8006 := by
  have h := C1_next_port_monotonic.1 [("x", entryX)]
  exact ⟨h.2.1 8005 (by decide), h.2.2 8006 (by decide) (by decide)⟩

/-- Claim C2: along every sequence of lifecycle operations starting
from the empty workspace, no two instances recorded in the workspace
config have the same port. -/
theorem C2_port_uniqueness {st : MgrState} (h : Reachable st) :
    (configPorts st).Pairwise (fun a b => a ≠ b) := by
  have hi := reachable_inv h
  unfold configPorts
  cases hcf : st.configFile with
  | none => exact List.Pairwise.nil
  | some c => exact hi.portsDistinct c hcf

theorem C2_port_uniqueness_witness :
    (configPorts stBeta).Pairwise (fun a b => a ≠ b) :=
  C2_port_uniqueness reachable_stBeta

/-- Claim C3 counterexample: after create alpha and remove alpha, the
network wp-network-2 still exists while no instance directory does;
creating beta computes ordinal 2 again, finds wp-network-2 present,
and completes with exit zero, silently reusing the existing network
instead of failing hard. -/
theorem C3_network_exists_counterexample :
    networkNameFor stAlphaGone ∈ stAlphaGone.networks ∧
    (create_instance stAlphaGone "beta" "80" "83" "nginx").2 = none ∧
    (create_instance stAlphaGone "beta" "80" "83" "nginx").1.networks =
      stAlphaGone.networks ∧
    (lookupDir (create_instance stAlphaGone "beta" "80" "83" "nginx").1
      "beta").map (fun d => d.info.network) =
      some (networkNameFor stAlphaGone) := by
  exact ⟨by decide, by decide, by decide, by decide⟩

/-- Claim C3 amended: when a Docker network with the computed name
wp-network-ordinal already exists, create_instance does not fail: it
completes with exit zero, creates no new network, and records the
existing network name in the instance metadata (no renumbering, silent
reuse). -/
theorem C3_network_reuse_amended {st : MgrState} {name m p w : String}
    (hdir : dirExists st name = false) (hws : validWebserver w = true)
    (hnet : networkNameFor st ∈ st.networks)
    (hshared : "wp-shared" ∈ st.networks) :
    (create_instance st name m p w).2 = none ∧
    (create_instance st name m p w).1.networks = st.networks ∧
    (lookupDir (create_instance st name m p w).1 name).map
      (fun d => d.info.network) = some (networkNameFor st) := by
  rw [create_instance_ok hdir hws]
  refine ⟨rfl, ?_, ?_⟩
  · show (createdState st name m p w).networks = st.networks
    simp [createdState, ensureNetwork, hnet, hshared]
  · show (lookupDir (createdState st name m p w) name).map
      (fun d => d.info.network) = some (networkNameFor st)
    rw [lookupDir_createdState_self m p w hdir]
    rfl

theorem C3_network_reuse_amended_witness :
    (create_instance stAlphaGone "beta2" "80" "83" "nginx").2 = none ∧
    (create_instance stAlphaGone "beta2" "80" "83" "nginx").1.networks =
      stAlphaGone.networks ∧
    (lookupDir (create_instance stAlphaGone "beta2" "80" "83" "nginx").1
      "beta2").map (fun d => d.info.network) =
      some (networkNameFor stAlphaGone) :=
  C3_network_reuse_amended (by decide) (by decide) (by decide) (by decide)

/-- Claim C4: a create call whose instance directory already exists,
or whose webserver is neither nginx nor apache, exits non-zero before
any side effect: the state at exit is exactly the input state, so the
workspace config and every instance directory are unchanged. -/
theorem C4_rejection_without_side_effects (st : MgrState)
    (name m p w : String)
    (h : dirExists st name = true ∨ validWebserver w = false) :
    ∃ e, create_instance st name m p w = (st, some e) := by
  unfold create_instance
  rcases h with h | h
  · rw [if_pos h]
    exact ⟨_, rfl⟩
  · by_cases hd : dirExists st name = true
    · rw [if_pos hd]
      exact ⟨_, rfl⟩
    · rw [if_neg hd, if_pos (by simp [h])]
      exact ⟨_, rfl⟩

theorem C4_rejection_without_side_effects_witness :
    (∃ e, create_instance stAlpha "alpha" "80" "83" "nginx" =
      (stAlpha, some e)) ∧
    (∃ e, create_instance stAlpha "delta" "80" "83" "lighttpd" =
      (stAlpha, some e)) :=
  ⟨C4_rejection_without_side_effects stAlpha "alpha" "80" "83" "nginx"
     (Or.inl (by decide)),
   C4_rejection_without_side_effects stAlpha "delta" "80" "83" "lighttpd"
     (Or.inr (by decide))⟩

theorem clone_copy_all_fails {st : MgrState} (hi : Inv st) (s t : String) :
    (clone_instance st s t "copy-all").2 ≠ none := by
  unfold clone_instance
  split
  · simp
  split
  · simp
  split
  · simp
  split
  · simp
  rename_i srcData heqSrc
  split
  · simp
  · rename_i st1 heqCreate
    obtain ⟨hdirT, hwsT, rfl⟩ := create_eq_none_inv heqCreate
    unfold cloneApplyStrategy
    rw [if_neg (by decide), if_pos rfl]
    split
    · simp
    · rename_i dump heqDump
      split
      · simp
      · rename_i tgtData heqTgt
        split
        · simp
        · rename_i rows heqImp
          exfalso
          have hlook : lookupDir (setFiles (createdState st t
              srcData.info.mysqlVersion srcData.info.phpVersion
              srcData.info.webserver) t srcData.files) t =
              some { info := createdInfo st srcData.info.mysqlVersion
                       srcData.info.phpVersion srcData.info.webserver,
                     files := srcData.files, db := [] } := by
            unfold setFiles
            rw [lookupDir_mapDir_self, lookupDir_createdState_self _ _ _ hdirT]
            rfl
          rw [hlook] at heqTgt
          obtain rfl := Option.some.inj heqTgt
          have hfresh := hi.fresh s srcData (lookupDir_mem heqSrc)
          unfold mysqlAuth at heqImp
          rw [if_neg (by simp only [createdInfo]; omega)] at heqImp
          cases heqImp

/-- Claim C5, settled against the code: the copy-files half holds (the
target database is empty and the target files match the source at
clone time), but the copy-all import authenticates against the target
MySQL with the root password of the SOURCE (the shell variable
DB_ROOT_PASSWORD sourced from the source .instance-info), so from any
reachable workspace a copy-all clone never completes; at the concrete
failing input the clone aborts with the MySQL access error and the
target database stays empty instead of containing the source rows. -/
theorem C5_copy_all_password_bug :
    (∀ st s t, Reachable st → (clone_instance st s t "copy-all").2 ≠ none) ∧
    (clone_instance stSeeded "alpha" "beta" "copy-all").2 =
      some "Access denied" ∧
    (lookupDir (clone_instance stSeeded "alpha" "beta" "copy-all").1
      "beta").map (fun d => d.db) = some [] ∧
    (lookupDir stSeeded "alpha").map (fun d => d.db) = some [1, 2, 3] ∧
    (clone_instance stSeeded "alpha" "gamma" "copy-files").2 = none ∧
    (lookupDir (clone_instance stSeeded "alpha" "gamma" "copy-files").1
      "gamma").map (fun d => d.db) = some [] ∧
    (lookupDir (clone_instance stSeeded "alpha" "gamma" "copy-files").1
      "gamma").map (fun d => d.files) =
      (lookupDir stSeeded "alpha").map (fun d => d.files) := by
  refine ⟨fun st s t hr => clone_copy_all_fails (reachable_inv hr) s t,
    by decide, by decide, by decide, by decide, by decide, by decide⟩

theorem C5_copy_all_password_bug_witness :
    (clone_instance stSeeded "alpha" "beta" "copy-all").2 ≠ none :=
  C5_copy_all_password_bug.1 stSeeded "alpha" "beta" reachable_stSeeded

theorem lookupDir_setFiles_created {st : MgrState} {t : String}
    (m p w : String) {f : FilesPayload} (hdirT : dirExists st t = false) :
    lookupDir (setFiles (createdState st t m p w) t f) t =
      some { info := createdInfo st m p w, files := f, db := [] } := by
  unfold setFiles
  rw [lookupDir_mapDir_self, lookupDir_createdState_self _ _ _ hdirT]
  rfl

theorem clone_target_created {st : MgrState} (hi : Inv st)
    {s t : String} {srcData : InstanceData} {f : FilesPayload}
    (heqSrc : lookupDir st s = some srcData)
    (hdirT : dirExists st t = false) (m p w : String) :
    ∃ tgtData,
      lookupDir (setFiles (createdState st t m p w) t f) t = some tgtData ∧
      tgtData.info.port ≠ srcData.info.port ∧
      tgtData.info.dbPassword ≠ srcData.info.dbPassword ∧
      tgtData.info.dbRootPassword ≠ srcData.info.dbRootPassword := by
  refine ⟨_, lookupDir_setFiles_created m p w hdirT, ?_, ?_, ?_⟩
  · obtain ⟨c, hc⟩ := Option.isSome_iff_exists.mp hi.cfgSome
    obtain ⟨e, he, hep⟩ := hi.agree s srcData (lookupDir_mem heqSrc) c hc
    have hmem : e.port ∈ portsOf c := List.mem_map.mpr ⟨(s, e), he, rfl⟩
    have hlt := lt_get_next_port hmem
    show (createdInfo st m p w).port ≠ srcData.info.port
    simp only [createdInfo]
    rw [hc]
    omega
  · have hfresh := hi.fresh s srcData (lookupDir_mem heqSrc)
    show (createdInfo st m p w).dbPassword ≠ srcData.info.dbPassword
    simp only [createdInfo]
    omega
  · have hfresh := hi.fresh s srcData (lookupDir_mem heqSrc)
    show (createdInfo st m p w).dbRootPassword ≠ srcData.info.dbRootPassword
    simp only [createdInfo]
    omega

/-- Claim C6 counterexample: create alpha, create beta, remove alpha,
then clone beta to gamma with the symlink strategy: the clone completes
but gamma records network wp-network-3, the very network of the live
source beta, because the ordinal is recomputed from the directory
count and the existing network is silently reused. -/
theorem C6_clone_network_counterexample :
    (clone_instance stNoAlpha "beta" "gamma" "symlink").2 = none ∧
    (lookupDir (clone_instance stNoAlpha "beta" "gamma" "symlink").1
      "gamma").map (fun d => d.info.network) = some "wp-network-3" ∧
    (lookupDir (clone_instance stNoAlpha "beta" "gamma" "symlink").1
      "beta").map (fun d => d.info.network) = some "wp-network-3" := by
  exact ⟨by decide, by decide, by decide⟩

/-- Claim C6 amended: for every clone that completes from a reachable
workspace, the target port and both generated database credentials
differ from those of the source, regardless of the strategy and of the
earlier create and remove history; the network name however is NOT
guaranteed distinct from the source network (see the counterexample
run, where the directory-count ordinal is reused after a removal). -/
theorem C6_clone_independence_amended {st : MgrState} {s t strat : String}
    (hr : Reachable st) (hok : (clone_instance st s t strat).2 = none) :
    ∃ srcData tgtData,
      lookupDir st s = some srcData ∧
      lookupDir (clone_instance st s t strat).1 t = some tgtData ∧
      tgtData.info.port ≠ srcData.info.port ∧
      tgtData.info.dbPassword ≠ srcData.info.dbPassword ∧
      tgtData.info.dbRootPassword ≠ srcData.info.dbRootPassword := by
  have hi := reachable_inv hr
  by_cases h1 : dirExists st s = true
  case neg =>
    exfalso
    have h := hok
    unfold clone_instance at h
    rw [if_pos h1] at h
    exact Option.noConfusion h
  by_cases h2 : dirExists st t = true
  case pos =>
    exfalso
    have h := hok
    unfold clone_instance at h
    rw [if_neg (not_not_intro h1), if_pos h2] at h
    exact Option.noConfusion h
  by_cases h3 : validStrategy strat = true
  case neg =>
    exfalso
    have h := hok
    unfold clone_instance at h
    rw [if_neg (not_not_intro h1), if_neg h2, if_pos h3] at h
    exact Option.noConfusion h
  obtain ⟨srcData, heqSrc⟩ := dirExists_lookup h1
  cases hcr : create_instance st t srcData.info.mysqlVersion
      srcData.info.phpVersion srcData.info.webserver with
  | mk st1 r =>
    cases r with
    | some e =>
        exfalso
        have h := hok
        unfold clone_instance at h
        rw [if_neg (not_not_intro h1), if_neg h2,
          if_neg (not_not_intro h3), heqSrc] at h
        dsimp only at h
        rw [hcr] at h
        exact Option.noConfusion h
    | none =>
        obtain ⟨hdirT, hwsT, rfl⟩ := create_eq_none_inv hcr
        have hcl : clone_instance st s t strat =
            cloneApplyStrategy (createdState st t srcData.info.mysqlVersion
              srcData.info.phpVersion srcData.info.webserver) srcData
              srcData.info.dbRootPassword s t strat := by
          unfold clone_instance
          rw [if_neg (not_not_intro h1), if_neg h2,
            if_neg (not_not_intro h3), heqSrc]
          dsimp only
          rw [hcr]
        by_cases hsym : strat = "symlink"
        · subst hsym
          have hfull : clone_instance st s t "symlink" =
              (setFiles (createdState st t srcData.info.mysqlVersion
                srcData.info.phpVersion srcData.info.webserver) t
                (FilesPayload.sharedWith s), none) := by
            rw [hcl]
            unfold cloneApplyStrategy
            rw [if_pos rfl]
          obtain ⟨tgtData, hlook, hport, hpw, hrpw⟩ :=
            clone_target_created hi heqSrc hdirT srcData.info.mysqlVersion
              srcData.info.phpVersion srcData.info.webserver
          refine ⟨srcData, tgtData, heqSrc, ?_, hport, hpw, hrpw⟩
          rw [hfull]
          exact hlook
        · by_cases hca : strat = "copy-all"
          · exfalso
            subst hca
            exact clone_copy_all_fails hi s t hok
          · have hcf : strat = "copy-files" := by
              simp [validStrategy, hsym, hca] at h3
              exact h3
            subst hcf
            have hfull : clone_instance st s t "copy-files" =
                (setFiles (createdState st t srcData.info.mysqlVersion
                  srcData.info.phpVersion srcData.info.webserver) t
                  srcData.files, none) := by
              rw [hcl]
              unfold cloneApplyStrategy
              rw [if_neg (by decide), if_neg (by decide)]
            obtain ⟨tgtData, hlook, hport, hpw, hrpw⟩ :=
              clone_target_created hi heqSrc hdirT srcData.info.mysqlVersion
                srcData.info.phpVersion srcData.info.webserver
            refine ⟨srcData, tgtData, heqSrc, ?_, hport, hpw, hrpw⟩
            rw [hfull]
            exact hlook

theorem C6_clone_independence_amended_witness :
    ∃ srcData tgtData,
      lookupDir stNoAlpha "beta" = some srcData ∧
      lookupDir (clone_instance stNoAlpha "beta" "gamma" "symlink").1
        "gamma" = some tgtData ∧
      tgtData.info.port ≠ srcData.info.port ∧
      tgtData.info.dbPassword ≠ srcData.info.dbPassword ∧
      tgtData.info.dbRootPassword ≠ srcData.info.dbRootPassword :=
  C6_clone_independence_amended reachable_stNoAlpha (by decide)

/-- Claim C7 counterexample: the name alpha! does not match the
pattern [A-Za-z0-9_-]+ of the specification, yet create accepts it,
completes with exit zero, and creates the instance directory: there is
no name-format validation on the create path. -/
theorem C7_no_name_validation_counterexample :
    matchesNamePattern "alpha!" = false ∧
    (manager_create initState "alpha!" "80" "83" "nginx").2 = none ∧
    dirExists (manager_create initState "alpha!" "80" "83" "nginx").1
      "alpha!" = true := by
  exact ⟨by decide, by decide, by decide⟩

/-- Claim C7 amended: create performs no format check on the instance
name: every non-empty name whose directory does not exist is accepted
when the webserver is valid, whether or not it matches [A-Za-z0-9_-]+;
only a missing (empty) name triggers the usage text and a non-zero
exit before any side effect. -/
theorem C7_name_validation_amended (st : MgrState) (name m p w : String)
    (hne : name ≠ "") (hdir : dirExists st name = false)
    (hws : validWebserver w = true) :
    (manager_create st name m p w).2 = none ∧
    manager_create st "" m p w = (st, some "usage") := by
  constructor
  · unfold manager_create
    rw [if_neg hne, create_instance_ok hdir hws]
  · unfold manager_create
    rw [if_pos rfl]

theorem C7_name_validation_amended_witness :
    (manager_create initState "beta!" "80" "83" "nginx").2 = none ∧
    manager_create initState "" "80" "83" "nginx" =
      (initState, some "usage") :=
  C7_name_validation_amended initState "beta!" "80" "83" "nginx"
    (by decide) (by decide) (by decide)

/-- Claim C8 counterexample: loading the workspace configuration when
the file is missing returns null (nothing), not a default-initialized
Workspace; the caller then aborts telling the user to run init. -/
theorem C8_missing_file_counterexample :
    loadWorkspaceConfig none = none ∧
    installGuard (loadWorkspaceConfig none) = some
      "This directory is not initialized as a wp-dind workspace." :=
  ⟨rfl, rfl⟩

/-- Claim C8 amended: the workspace config loader returns null on a
missing file and its caller rejects with a message to run init; it is
the global CLI config loader loadConfig that tolerates a missing file
by returning a default-initialized document with a null default image
path and an empty instances mapping. -/
theorem C8_missing_file_amended :
    loadWorkspaceConfig none = none ∧
    installGuard (loadWorkspaceConfig none) = some
      "This directory is not initialized as a wp-dind workspace." ∧
    loadConfig none = { defaultImagePath := none, instances := [] } ∧
    (∀ w : WorkspaceJson, loadWorkspaceConfig (some w) = some w) ∧
    (∀ c : CliConfig, loadConfig (some c) = c) :=
  ⟨rfl, rfl, rfl, fun _ => rfl, fun _ => rfl⟩

/-- Claim C9: when the workspace config file does not exist,
save_instance_to_config returns success without writing; create still
builds the directory and metadata (exit zero), the config file stays
missing, the instance is never recorded, and a subsequent
get_next_port still returns the range start 8001, blind to the
assigned port. -/
theorem C9_missing_config_invisible (st : MgrState) (name m p w : String)
    (hcfg : st.configFile = none) (hdir : dirExists st name = false)
    (hws : validWebserver w = true) :
    save_instance_to_config st.configFile name (get_next_port st.configFile)
      w (php_full_version p) (mysql_full_version m) = none ∧
    (create_instance st name m p w).2 = none ∧
    (create_instance st name m p w).1.configFile = none ∧
    lookupDir (create_instance st name m p w).1 name =
      some { info := createdInfo st m p w, files := FilesPayload.own 0,
             db := [] } ∧
    (createdInfo st m p w).port = INSTANCE_PORT_START ∧
    get_next_port (create_instance st name m p w).1.configFile =
      INSTANCE_PORT_START := by
  refine ⟨by rw [hcfg]; rfl, ?_, ?_, ?_, ?_, ?_⟩
  · rw [create_instance_ok hdir hws]
  · rw [create_instance_ok hdir hws]
    show (createdState st name m p w).configFile = none
    simp [createdState, hcfg, save_instance_to_config]
  · rw [create_instance_ok hdir hws]
    exact lookupDir_createdState_self m p w hdir
  · simp [createdInfo, hcfg, get_next_port]
  · rw [create_instance_ok hdir hws]
    show get_next_port (createdState st name m p w).configFile =
      INSTANCE_PORT_START
    simp [createdState, hcfg, save_instance_to_config, get_next_port]

/-- A workspace whose config file does not exist (no entrypoint wrote
it), otherwise empty. -/
def stNoCfg : MgrState :=
  { configFile := none, dirs := [], networks := [], counter := 0 }

theorem C9_missing_config_invisible_witness :
    save_instance_to_config stNoCfg.configFile "alpha"
      (get_next_port stNoCfg.configFile) "nginx" (php_full_version "83")
      (mysql_full_version "80") = none ∧
    (create_instance stNoCfg "alpha" "80" "83" "nginx").2 = none ∧
    (create_instance stNoCfg "alpha" "80" "83" "nginx").1.configFile =
      none ∧
    lookupDir (create_instance stNoCfg "alpha" "80" "83" "nginx").1
      "alpha" = some { info := createdInfo stNoCfg "80" "83" "nginx",
                       files := FilesPayload.own 0, db := [] } ∧
    (createdInfo stNoCfg "80" "83" "nginx").port = INSTANCE_PORT_START ∧
    get_next_port
      (create_instance stNoCfg "alpha" "80" "83" "nginx").1.configFile =
      INSTANCE_PORT_START :=
  C9_missing_config_invisible stNoCfg "alpha" "80" "83" "nginx" rfl
    (by decide) (by decide)

theorem string_data_append (x y : String) :
    (x ++ y).data = x.data ++ y.data := rfl

theorem startsWithChars_append_left {l1 l2 l3 : List Char}
    (h : startsWithChars (l1 ++ l2) l3 = true) :
    startsWithChars l1 l3 = true := by
  induction l1 generalizing l3 with
  | nil => rfl
  | cons a as ih =>
      cases l3 with
      | nil => cases h
      | cons b bs =>
          simp only [List.cons_append, startsWithChars,
            Bool.and_eq_true] at h ⊢
          exact ⟨h.1, ih h.2⟩

/-- Claim C10: list and info classify instance X as running exactly
when some running container name starts with X followed by a dash;
consequently, when the container of a longer-named instance (X dash
suffix) runs, the shorter-named instance X is reported running even
with all of its own containers stopped. -/
theorem C10_running_classification :
    (∀ name running, instanceReportedRunning name running = true ↔
      ∃ c ∈ running, grepCaret (name ++ "-") c = true) ∧
    (∀ x suffix c running, c ∈ running →
      grepCaret (x ++ "-" ++ suffix ++ "-") c = true →
      instanceReportedRunning x running = true) ∧
    instanceReportedRunning "foo" ["foo-bar-mysql"] = true ∧
    instanceReportedRunning "foo" [] = false := by
  refine ⟨?_, ?_, by decide, by decide⟩
  · intro name running
    simp [instanceReportedRunning, List.any_eq_true]
  · intro x suffix c running hc hgrep
    have hx : grepCaret (x ++ "-") c = true := by
      unfold grepCaret at hgrep ⊢
      have hdata : (x ++ "-" ++ suffix ++ "-").data =
          (x ++ "-").data ++ (suffix ++ "-").data := by
        simp [string_data_append, List.append_assoc]
      rw [hdata] at hgrep
      exact startsWithChars_append_left hgrep
    unfold instanceReportedRunning
    exact List.any_eq_true.mpr ⟨c, hc, hx⟩

theorem C10_running_classification_witness :
    instanceReportedRunning "foo" ["foo-bar-mysql"] = true :=
  C10_running_classification.2.1 "foo" "bar" "foo-bar-mysql"
    ["foo-bar-mysql"] (by decide) (by decide)

end WpDind
